import Mathlib

/-!
Shallow embedding of the `start-react-project` CLI scaffolding tool.

The repository ships one main script (`src/index.js`) and two earlier
variants of it (`src/unnamed/part_000`, a minimal variant whose
`createApp` only validates the name, and `src/unnamed/part_001`, a
variant without git initialisation and with the installer fixed to npm).

The pipeline is pure orchestration: resolve the CLI argument to an
absolute path, validate the base name against npm registry naming
rules, create or confirm the target directory, copy the bundled
template tree, patch the generated manifest's name field, and spawn an
installer subprocess.  We model the filesystem as an association list
from paths (component lists) to entries, the observable behaviour as a
trace of effects, and the end of the run as an `Outcome`.
-/

namespace SRP

/-- A filesystem path, as its list of components (the result of
splitting an absolute path on the separator). -/
abbrev Path := List String

/-- A package manifest (`package.json`): the `name` field, which the
tool rewrites, and all remaining fields, which it leaves alone. -/
structure Manifest where
  name : String
  other : List (String × String)
deriving DecidableEq, Repr

/-- Contents of a file: opaque bytes for ordinary template files, and
structured data for a manifest file. -/
inductive FileContent
| raw (s : String)
| manifest (m : Manifest)
deriving DecidableEq, Repr

/-- A filesystem entry: a directory or a file with contents. -/
inductive FsEntry
| dir
| file (c : FileContent)
deriving DecidableEq, Repr

/-- The filesystem, as an association list from paths to entries; the
first binding for a path wins. -/
abbrev FileSystem := List (Path × FsEntry)

/-- Look a path up in the filesystem (first binding wins). -/
def lookupFs : FileSystem → Path → Option FsEntry
| [], _ => none
| (q, e) :: rest, p => if q = p then some e else lookupFs rest p

/-- Write an entry at a path, shadowing any previous binding. -/
def setFs (fs : FileSystem) (p : Path) (e : FsEntry) : FileSystem :=
  (p, e) :: fs

/-- Delete every binding for a path. -/
def removeFs (fs : FileSystem) (p : Path) : FileSystem :=
  fs.filter (fun q => decide (q.1 ≠ p))

/-- Split a character list on a separator character (structural
counterpart of JavaScript `split`). -/
def splitAux (sep : Char) : List Char → List Char → List (List Char)
| cur, [] => [cur.reverse]
| cur, c :: rest =>
  if c = sep then cur.reverse :: splitAux sep [] rest
  else splitAux sep (c :: cur) rest

/-- Split a path string on the separator into its components. -/
def splitPath (s : String) : List String :=
  (splitAux (Char.ofNat 47) [] s.data).map (fun l => ⟨l⟩)

/-- Whether the string starts with the given character. -/
def headIs (s : String) (c : Char) : Bool :=
  match s.data with
  | [] => false
  | d :: _ => d = c

/-- JavaScript `String.prototype.trim`: strip leading and trailing
whitespace. -/
def trimStr (s : String) : String :=
  ⟨((s.data.dropWhile Char.isWhitespace).reverse.dropWhile Char.isWhitespace).reverse⟩

/-- JavaScript `String.prototype.toLowerCase` (ASCII fragment). -/
def lowerStr (s : String) : String :=
  ⟨s.data.map Char.toLower⟩

/-- JavaScript `Array.prototype.join(' ')`. -/
def joinArgs : List String → String
| [] => ""
| [a] => a
| a :: b :: rest => a ++ " " ++ joinArgs (b :: rest)

/-- Helper for path resolution: process components left to right,
keeping the resolved prefix reversed in `acc`; `..` pops a component
(clamped at the root) and empty or `.` components vanish, as in
Node's `path.resolve`. -/
def normAux : List String → List String → List String
| acc, [] => acc.reverse
| acc, c :: rest =>
  if c = "" ∨ c = "." then normAux acc rest
  else if c = ".." then normAux acc.tail rest
  else normAux (c :: acc) rest

/-- `path.resolve(cwd, s)`: split on the separator and normalise,
against the current working directory unless `s` is absolute. -/
def resolvePath (cwd : Path) (s : String) : Path :=
  if headIs s (Char.ofNat 47) then normAux [] (splitPath s)
  else normAux cwd.reverse (splitPath s)

/-- `path.basename` of a resolved path: its last component. -/
def basename (p : Path) : String :=
  p.getLast?.getD ("")

/-- Result of the external name validator: rule violations (errors)
and advisories (warnings). -/
structure ValidationResult where
  errors : List String
  warnings : List String
deriving DecidableEq, Repr

/-- A name is valid for new packages when there are no errors and no
warnings. -/
def ValidationResult.validForNewPackages (r : ValidationResult) : Bool :=
  r.errors.isEmpty && r.warnings.isEmpty

/-- Characters that survive `encodeURIComponent` unchanged
(alphanumerics and `-_.!~*'()`); `39` is the apostrophe. -/
def urlFriendlyChar (c : Char) : Bool :=
  c.isAlphanum || [Char.ofNat 45, Char.ofNat 95, Char.ofNat 46, Char.ofNat 33,
    Char.ofNat 126, Char.ofNat 42, Char.ofNat 39, Char.ofNat 40, Char.ofNat 41].contains c

/-- Characters the registry newly forbids in names (`~'!()*`);
their presence is reported as a warning. -/
def specialChar (c : Char) : Bool :=
  [Char.ofNat 126, Char.ofNat 39, Char.ofNat 33, Char.ofNat 40, Char.ofNat 41,
    Char.ofNat 42].contains c

/-- Modelled from the spec: the external package-registry name
validator (the `validate-npm-package-name` dependency, not part of
this repository).  Per the spec it applies "lowercase convention,
allowed character set, length limits, reserved-name exclusions",
producing a list of errors and a list of warnings; the name is
accepted exactly when both lists are empty. -/
def validateProjectName (name : String) : ValidationResult :=
  let errors :=
    (if name.length = 0 then [("name length must be greater than zero")] else [])
    ++ (if headIs name (Char.ofNat 46) then [("name cannot start with a period")] else [])
    ++ (if headIs name (Char.ofNat 95) then [("name cannot start with an underscore")] else [])
    ++ (if trimStr name ≠ name then [("name cannot contain leading or trailing spaces")] else [])
    ++ (if name = "node_modules" ∨ name = "favicon.ico" then [(name ++ " is a blacklisted name")] else [])
    ++ (if ¬ name.data.all urlFriendlyChar then [("name can only contain URL-friendly characters")] else [])
  let warnings :=
    (if name.length > 214 then [("name can no longer contain more than 214 characters")] else [])
    ++ (if lowerStr name ≠ name then [("name can no longer contain capital letters")] else [])
    ++ (if name.data.any specialChar then [("name can no longer contain special characters")] else [])
  ⟨errors, warnings⟩

/-- The structured error value routed to the terminal `.catch`
handler, or produced where the source throws. -/
inductive ErrVal
| cmdFailed (command : String)
| renameMissing
| manifestMissing
deriving DecidableEq, Repr

/-- Observable effects of a run, in order. -/
inductive Effect
| printUsage
| printViolation (msg : String)
| ensureDir (p : Path)
| prompt
| reportConflict (appName : String)
| chdir (p : Path)
| gitInit
| copyTemplate (dest : Path)
| renameIgnore (dest : Path)
| writeManifest (p : Path)
| spawnInstall (cmd : String) (args : Option (List String))
| reportFailure (e : ErrVal)
| successMessage
deriving DecidableEq, Repr

/-- How the process ends: an explicit `process.exit`, normal
completion of the promise chain (implicit exit 0), the terminal
`.catch` handler logging an error (and then implicit exit 0), or an
uncaught exception crashing the process (Node exits 1). -/
inductive Outcome
| exited (code : Nat)
| completed
| caughtError (e : ErrVal)
| crashed
deriving DecidableEq, Repr

/-- The process exit code each outcome produces. -/
def Outcome.exitCode : Outcome → Nat
| .exited c => c
| .completed => 0
| .caughtError _ => 0
| .crashed => 1

/-- The result of a run: its effect trace, the final filesystem, and
how the process ended. -/
structure RunResult where
  effects : List Effect
  fsys : FileSystem
  outcome : Outcome
deriving DecidableEq, Repr

/-- Everything the environment feeds the run: working directory,
initial filesystem, the bundled template tree (relative path and
contents of each template file), the answer the user would give the
overwrite prompt, whether the `yarnpkg` probe succeeds, and the exit
code of the spawned installer subprocess. -/
structure Env where
  cwd : Path
  fsys : FileSystem
  template : List (Path × FileContent)
  answer : String
  yarnAvailable : Bool
  installExit : Nat
deriving DecidableEq, Repr

/-- Outcome of `validateDir`: proceed with an (possibly updated)
filesystem after emitting some effects, or abort via `process.exit(1)`. -/
inductive DirResult
| proceed (fs : FileSystem) (effs : List Effect)
| abort (effs : List Effect)
deriving DecidableEq, Repr

/-- `validateDir(dir, appName)`: create the directory when the path is
free; when it is an existing directory, prompt and proceed only on the
exact answer `y`; when it is an existing non-directory, report the
conflict and abort. -/
def validateDir (fs : FileSystem) (root : Path) (appName : String) (answer : String) : DirResult :=
  match lookupFs fs root with
  | none => DirResult.proceed (setFs fs root FsEntry.dir) [Effect.ensureDir root]
  | some FsEntry.dir =>
    if answer = "y" then DirResult.proceed fs [Effect.prompt]
    else DirResult.abort [Effect.prompt]
  | some (FsEntry.file _) => DirResult.abort [Effect.reportConflict appName]

/-- `fs.copy(template, root)`: write every template file under the
target root, later entries shadowing earlier ones. -/
def copyTemplate (root : Path) : FileSystem → List (Path × FileContent) → FileSystem
| fs, [] => fs
| fs, (p, c) :: rest => copyTemplate root (setFs fs (root ++ p) (FsEntry.file c)) rest

/-- `fs.renameSync(root/.npmignore, root/.gitignore)`: move the copied
`.npmignore` to `.gitignore`; throws when the source is missing. -/
def renameNpmignore (fs : FileSystem) (root : Path) : Except ErrVal FileSystem :=
  match lookupFs fs (root ++ [(".npmignore")]) with
  | some (FsEntry.file c) =>
    Except.ok (setFs (removeFs fs (root ++ [(".npmignore")])) (root ++ [(".gitignore")]) (FsEntry.file c))
  | _ => Except.error ErrVal.renameMissing

/-- `saveProjectName(root, name)`: load `root/package.json`, overwrite
its `name` field, and write it back; fails when the file is missing or
not a manifest. -/
def saveProjectName (fs : FileSystem) (root : Path) (name : String) : Except ErrVal FileSystem :=
  match lookupFs fs (root ++ [("package.json")]) with
  | some (FsEntry.file (FileContent.manifest m)) =>
    Except.ok (setFs fs (root ++ [("package.json")]) (FsEntry.file (FileContent.manifest ⟨name, m.other⟩)))
  | _ => Except.error ErrVal.manifestMissing

/-- The command name the installer stage spawns. -/
def installCommand (useYarn : Bool) : String :=
  if useYarn then "yarn" else "npm"

/-- The argument list handed to `spawn`; in the yarn branch the source
never assigns `args`, so it stays `undefined` (`none`). -/
def installArgs (useYarn : Bool) : Option (List String) :=
  if useYarn then none else some [("install")]

/-- How the installer promise settles. -/
inductive InstallResult
| resolved
| rejected (e : ErrVal)
| crashedTypeError
deriving DecidableEq, Repr

/-- The `close` handler of the spawned installer: exit code 0
resolves; a non-zero code builds the failing command line from
`command` and `args.join(' ')` and rejects with it — but in the yarn
branch `args` is `undefined`, so `args.join` throws an uncaught
`TypeError`. -/
def installDependencies (useYarn : Bool) (exitCode : Nat) : InstallResult :=
  if exitCode ≠ 0 then
    match installArgs useYarn with
    | some as =>
      InstallResult.rejected (ErrVal.cmdFailed (installCommand useYarn ++ " " ++ joinArgs as))
    | none => InstallResult.crashedTypeError
  else InstallResult.resolved

/-- The promise chain of `src/index.js` after `validateDir` resolves:
change into the target, initialise git, copy the template, rename the
ignore file, patch the manifest, then install; any stage error reaches
the terminal `.catch` handler, which logs it. -/
def afterValidation (fs : FileSystem) (root : Path) (appName : String) (useYarn : Bool)
    (template : List (Path × FileContent)) (installExit : Nat) : RunResult :=
  let effs1 := [Effect.chdir root, Effect.gitInit, Effect.copyTemplate root]
  let fs1 := copyTemplate root fs template
  match renameNpmignore fs1 root with
  | Except.error e => ⟨effs1 ++ [Effect.reportFailure e], fs1, Outcome.caughtError e⟩
  | Except.ok fs2 =>
    let effs2 := effs1 ++ [Effect.renameIgnore root]
    match saveProjectName fs2 root appName with
    | Except.error e => ⟨effs2 ++ [Effect.reportFailure e], fs2, Outcome.caughtError e⟩
    | Except.ok fs3 =>
      let effs3 := effs2 ++ [Effect.writeManifest (root ++ [("package.json")]),
        Effect.spawnInstall (installCommand useYarn) (installArgs useYarn)]
      match installDependencies useYarn installExit with
      | InstallResult.resolved => ⟨effs3 ++ [Effect.successMessage], fs3, Outcome.completed⟩
      | InstallResult.rejected e => ⟨effs3 ++ [Effect.reportFailure e], fs3, Outcome.caughtError e⟩
      | InstallResult.crashedTypeError => ⟨effs3, fs3, Outcome.crashed⟩

/-- `createApp(name)` of `src/index.js`: resolve the argument, take
its base name, probe for yarn, validate the name (printing every error
and warning and exiting 1 on rejection), then run the
directory/copy/patch/install chain. -/
def createApp (env : Env) (name : String) : RunResult :=
  let root := resolvePath env.cwd name
  let appName := basename root
  let v := validateProjectName appName
  if v.validForNewPackages then
    match validateDir env.fsys root appName env.answer with
    | DirResult.proceed fs effs =>
      let r := afterValidation fs root appName env.yarnAvailable env.template env.installExit
      ⟨effs ++ r.effects, r.fsys, r.outcome⟩
    | DirResult.abort effs => ⟨effs, env.fsys, Outcome.exited 1⟩
  else
    ⟨(v.errors ++ v.warnings).map Effect.printViolation, env.fsys, Outcome.exited 1⟩

/-- The promise chain of `src/unnamed/part_001` after `validateDir`:
copy the template (no git, no ignore-file rename), patch the manifest,
then install with `useYarn` hard-coded to `false`, changing into the
target just before spawning. -/
def afterValidationV1 (fs : FileSystem) (root : Path) (appName : String)
    (template : List (Path × FileContent)) (installExit : Nat) : RunResult :=
  let effs1 := [Effect.copyTemplate root]
  let fs1 := copyTemplate root fs template
  match saveProjectName fs1 root appName with
  | Except.error e => ⟨effs1 ++ [Effect.reportFailure e], fs1, Outcome.caughtError e⟩
  | Except.ok fs2 =>
    let effs2 := effs1 ++ [Effect.writeManifest (root ++ [("package.json")]),
      Effect.chdir root, Effect.spawnInstall (installCommand false) (installArgs false)]
    match installDependencies false installExit with
    | InstallResult.resolved => ⟨effs2, fs2, Outcome.completed⟩
    | InstallResult.rejected e => ⟨effs2 ++ [Effect.reportFailure e], fs2, Outcome.caughtError e⟩
    | InstallResult.crashedTypeError => ⟨effs2, fs2, Outcome.crashed⟩

/-- `createApp(name)` of `src/unnamed/part_001`. -/
def createAppV1 (env : Env) (name : String) : RunResult :=
  let root := resolvePath env.cwd name
  let appName := basename root
  let v := validateProjectName appName
  if v.validForNewPackages then
    match validateDir env.fsys root appName env.answer with
    | DirResult.proceed fs effs =>
      let r := afterValidationV1 fs root appName env.template env.installExit
      ⟨effs ++ r.effects, r.fsys, r.outcome⟩
    | DirResult.abort effs => ⟨effs, env.fsys, Outcome.exited 1⟩
  else
    ⟨(v.errors ++ v.warnings).map Effect.printViolation, env.fsys, Outcome.exited 1⟩

/-- `createApp(name)` of the minimal variant `src/unnamed/part_000`:
resolve, take the base name, validate it, and return — nothing else. -/
def createAppMin (env : Env) (name : String) : RunResult :=
  let root := resolvePath env.cwd name
  let appName := basename root
  let v := validateProjectName appName
  if v.validForNewPackages then ⟨[], env.fsys, Outcome.completed⟩
  else ⟨(v.errors ++ v.warnings).map Effect.printViolation, env.fsys, Outcome.exited 1⟩

/-- The top level of the script: with no positional argument it prints
usage and exits 1; otherwise it runs `createApp`. -/
def runCli (env : Env) (argv : Option String) : RunResult :=
  match argv with
  | none => ⟨[Effect.printUsage], env.fsys, Outcome.exited 1⟩
  | some name => createApp env name

/-- Whether an effect is the terminal handler logging a caught error. -/
def Effect.isReportFailure : Effect → Bool
| Effect.reportFailure _ => true
| _ => false

/-- A small concrete template tree: an ignore file, a manifest, and an
ordinary source file. -/
def tplA : List (Path × FileContent) :=
  [([(".npmignore")], FileContent.raw ("nm")),
   ([("package.json")], FileContent.manifest ⟨"tpl", [("version", "1.0.0")]⟩),
   ([("src"), ("app.js")], FileContent.raw ("code"))]

/-- Concrete run environment: fresh target, npm installer succeeding. -/
def envC1 : Env := ⟨[("h")], [], tplA, "", false, 0⟩

/-- Concrete run environment for the template-preservation claims. -/
def envC2 : Env := ⟨[("h")], [], tplA, "", false, 0⟩

/-- Concrete run environment: the target already exists as a
directory and the prompt is answered `n`. -/
def envC3 : Env := ⟨[("h")], [([("h"), ("app")], FsEntry.dir)], tplA, "n", false, 0⟩

/-- Concrete run environment: the target already exists as a regular
file. -/
def envC4 : Env := ⟨[("h")], [([("h"), ("app")], FsEntry.file (FileContent.raw ("x")))], tplA, "", false, 0⟩

/-- Concrete run environment: yarn probe succeeds and the installer
subprocess exits 1. -/
def envC5 : Env := ⟨[("h")], [], tplA, "", true, 1⟩

/-- Concrete run environment with a fresh target. -/
def envC6 : Env := ⟨[("h")], [], tplA, "", false, 0⟩

/-- Concrete run environment: yarn probe succeeds and the installer
subprocess exits 2. -/
def envC7 : Env := ⟨[("h")], [], tplA, "", true, 2⟩

/-- Concrete run environment: npm branch with the installer subprocess
exiting 1. -/
def envC7w : Env := ⟨[("h")], [], tplA, "", false, 1⟩

/-- Intermediate filesystems of the `envC7w` run with argument `a`,
spelled with the model's own operations. -/
def fsAC7 : FileSystem := setFs [] ([("h"), ("a")]) FsEntry.dir

/-- Filesystem of the `envC7w` run after the template copy. -/
def fs1C7 : FileSystem := copyTemplate ([("h"), ("a")]) fsAC7 envC7w.template

/-- Filesystem of the `envC7w` run after the ignore-file rename. -/
def fs2C7 : FileSystem :=
  setFs (removeFs fs1C7 ([("h"), ("a"), (".npmignore")])) ([("h"), ("a"), (".gitignore")])
    (FsEntry.file (FileContent.raw ("nm")))

/-- Filesystem of the `envC7w` run after the manifest patch. -/
def fs3C7 : FileSystem :=
  setFs fs2C7 ([("h"), ("a"), ("package.json")])
    (FsEntry.file (FileContent.manifest ⟨"a", [("version", "1.0.0")]⟩))

/-- Concrete run environment: the target already exists as a
directory and the prompt is answered `Y` (capital). -/
def envC8 : Env := ⟨[("h")], [([("h"), ("app")], FsEntry.dir)], tplA, "Y", false, 0⟩

/-- Concrete run environment with a fresh target. -/
def envC9 : Env := ⟨[("h")], [], tplA, "", false, 0⟩

/-- Concrete run environment for the minimal variant. -/
def envC10 : Env := ⟨[("h")], [([("q")], FsEntry.dir)], tplA, "", false, 0⟩

/-! Lookup lemmas for the filesystem model. -/

theorem lookupFs_setFs (fs : FileSystem) (p : Path) (e : FsEntry) (q : Path) :
    lookupFs (setFs fs p e) q = if p = q then some e else lookupFs fs q := rfl

theorem lookupFs_removeFs (fs : FileSystem) (p q : Path) :
    lookupFs (removeFs fs p) q = if p = q then none else lookupFs fs q := by
  induction fs with
  | nil => simp [removeFs, lookupFs]
  | cons hd tl ih =>
    obtain ⟨r, e⟩ := hd
    simp only [removeFs, List.filter_cons, ne_eq, decide_not] at ih ⊢
    by_cases hp : r = p <;> by_cases hq : r = q
    · subst hp; subst hq; simp [lookupFs, ih]
    · subst hp
      have hpq : ¬ r = q := hq
      simp [lookupFs, ih, hpq]
    · subst hq
      have hpq : ¬ p = r := fun hh => hp hh.symm
      simp [lookupFs, ih, hp, hpq]
    · simp [lookupFs, ih, hp, hq]

theorem lookupFs_copyTemplate_notin (root : Path) (tpl : List (Path × FileContent))
    (fs : FileSystem) (q : Path) (h : ∀ pc ∈ tpl, root ++ pc.1 ≠ q) :
    lookupFs (copyTemplate root fs tpl) q = lookupFs fs q := by
  induction tpl generalizing fs with
  | nil => rfl
  | cons hd tl ih =>
    obtain ⟨p, c⟩ := hd
    have h1 : root ++ p ≠ q := h ⟨p, c⟩ (List.mem_cons_self _ _)
    simp only [copyTemplate]
    rw [ih _ (fun pc hm => h pc (List.mem_cons_of_mem _ hm)), lookupFs_setFs, if_neg h1]

theorem lookupFs_copyTemplate_mem (root : Path) (tpl : List (Path × FileContent))
    (fs : FileSystem) (p : Path) (c : FileContent)
    (hmem : (p, c) ∈ tpl) (hnd : (tpl.map Prod.fst).Nodup) :
    lookupFs (copyTemplate root fs tpl) (root ++ p) = some (FsEntry.file c) := by
  induction tpl generalizing fs with
  | nil => cases hmem
  | cons hd tl ih =>
    obtain ⟨p0, c0⟩ := hd
    simp only [List.map_cons, List.nodup_cons] at hnd
    simp only [copyTemplate]
    rcases List.mem_cons.mp hmem with heq | hmem2
    · injection heq with h1 h2
      subst h1; subst h2
      rw [lookupFs_copyTemplate_notin root tl _ _ ?_, lookupFs_setFs, if_pos rfl]
      intro pc hpc hcontra
      exact hnd.1 ((List.append_cancel_left hcontra) ▸ List.mem_map_of_mem Prod.fst hpc)
    · exact ih _ hmem2 hnd.2

theorem append_ne_of_ne_nil (root p : Path) (hp : p ≠ []) : root ++ p ≠ root := by
  intro h
  have hlen := congrArg List.length h
  simp only [List.length_append] at hlen
  exact hp (List.length_eq_zero.mp (by omega))

/-! Lemmas about the effect traces of the post-validation pipeline. -/

theorem copy_mem_afterValidation (fs : FileSystem) (root : Path) (appName : String)
    (useYarn : Bool) (tpl : List (Path × FileContent)) (ec : Nat) :
    Effect.copyTemplate root ∈ (afterValidation fs root appName useYarn tpl ec).effects := by
  unfold afterValidation
  cases hre : renameNpmignore (copyTemplate root fs tpl) root with
  | error e => simp [hre]
  | ok fs2 =>
    cases hsv : saveProjectName fs2 root appName with
    | error e => simp [hre, hsv]
    | ok fs3 => cases hin : installDependencies useYarn ec <;> simp [hre, hsv, hin]

theorem printViolation_not_mem_afterValidation (fs : FileSystem) (root : Path) (appName : String)
    (useYarn : Bool) (tpl : List (Path × FileContent)) (ec : Nat) (msg : String) :
    Effect.printViolation msg ∉ (afterValidation fs root appName useYarn tpl ec).effects := by
  unfold afterValidation
  cases hre : renameNpmignore (copyTemplate root fs tpl) root with
  | error e => simp [hre]
  | ok fs2 =>
    cases hsv : saveProjectName fs2 root appName with
    | error e => simp [hre, hsv]
    | ok fs3 => cases hin : installDependencies useYarn ec <;> simp [hre, hsv, hin]

theorem afterValidation_no_exit (fs : FileSystem) (root : Path) (appName : String)
    (useYarn : Bool) (tpl : List (Path × FileContent)) (ec : Nat) (c : Nat) :
    (afterValidation fs root appName useYarn tpl ec).outcome ≠ Outcome.exited c := by
  unfold afterValidation
  cases hre : renameNpmignore (copyTemplate root fs tpl) root with
  | error e => simp [hre]
  | ok fs2 =>
    cases hsv : saveProjectName fs2 root appName with
    | error e => simp [hre, hsv]
    | ok fs3 => cases hin : installDependencies useYarn ec <;> simp [hre, hsv, hin]

/-! Structure of a completed run of the main variant: validation
passed, the target is a directory, the copied `.npmignore` existed,
the copied manifest existed, and the final filesystem is the copied
tree after the rename and the manifest patch. -/

theorem createApp_completed_shape (env : Env) (name : String)
    (hc : (createApp env name).outcome = Outcome.completed) :
    ∃ fsA m cNpm,
      lookupFs fsA (resolvePath env.cwd name) = some FsEntry.dir ∧
      lookupFs (copyTemplate (resolvePath env.cwd name) fsA env.template)
        (resolvePath env.cwd name ++ [(".npmignore")]) = some (FsEntry.file cNpm) ∧
      lookupFs
        (setFs (removeFs (copyTemplate (resolvePath env.cwd name) fsA env.template)
            (resolvePath env.cwd name ++ [(".npmignore")]))
          (resolvePath env.cwd name ++ [(".gitignore")]) (FsEntry.file cNpm))
        (resolvePath env.cwd name ++ [("package.json")]) = some (FsEntry.file (FileContent.manifest m)) ∧
      (createApp env name).fsys =
        setFs (setFs (removeFs (copyTemplate (resolvePath env.cwd name) fsA env.template)
            (resolvePath env.cwd name ++ [(".npmignore")]))
          (resolvePath env.cwd name ++ [(".gitignore")]) (FsEntry.file cNpm))
        (resolvePath env.cwd name ++ [("package.json")])
        (FsEntry.file (FileContent.manifest ⟨basename (resolvePath env.cwd name), m.other⟩)) := by
  by_cases hv : (validateProjectName (basename (resolvePath env.cwd name))).validForNewPackages = true
  case neg =>
    exfalso
    rw [Bool.not_eq_true] at hv
    simp only [createApp, hv, Bool.false_eq_true, if_false] at hc
    simp at hc
  case pos =>
  cases hvd : validateDir env.fsys (resolvePath env.cwd name) (basename (resolvePath env.cwd name)) env.answer with
  | abort effs =>
    exfalso
    simp only [createApp, hv, if_true, hvd] at hc
    simp at hc
  | proceed fsA effs =>
    have hc2 : (afterValidation fsA (resolvePath env.cwd name) (basename (resolvePath env.cwd name))
        env.yarnAvailable env.template env.installExit).outcome = Outcome.completed := by
      simpa only [createApp, hv, if_true, hvd] using hc
    have hdir : lookupFs fsA (resolvePath env.cwd name) = some FsEntry.dir := by
      unfold validateDir at hvd
      cases hl0 : lookupFs env.fsys (resolvePath env.cwd name) with
      | none =>
        rw [hl0] at hvd
        injection hvd with h1 h2
        rw [← h1, lookupFs_setFs, if_pos rfl]
      | some entry =>
        cases entry with
        | dir =>
          rw [hl0] at hvd
          by_cases ha : env.answer = "y"
          · rw [if_pos ha] at hvd
            injection hvd with h1 h2
            rw [← h1]
            exact hl0
          · rw [if_neg ha] at hvd
            cases hvd
        | file c =>
          rw [hl0] at hvd
          cases hvd
    cases hre : renameNpmignore (copyTemplate (resolvePath env.cwd name) fsA env.template) (resolvePath env.cwd name) with
    | error e =>
      exfalso
      simp only [afterValidation, hre] at hc2
      simp at hc2
    | ok fs2 =>
      cases hsv : saveProjectName fs2 (resolvePath env.cwd name) (basename (resolvePath env.cwd name)) with
      | error e =>
        exfalso
        simp only [afterValidation, hre, hsv] at hc2
        simp at hc2
      | ok fs3 =>
        cases hin : installDependencies env.yarnAvailable env.installExit with
        | rejected e =>
          exfalso
          simp only [afterValidation, hre, hsv, hin] at hc2
          simp at hc2
        | crashedTypeError =>
          exfalso
          simp only [afterValidation, hre, hsv, hin] at hc2
          simp at hc2
        | resolved =>
          have hfs : (createApp env name).fsys = fs3 := by
            simp only [createApp, hv, if_true, hvd, afterValidation, hre, hsv, hin]
          unfold renameNpmignore at hre
          cases hl1 : lookupFs (copyTemplate (resolvePath env.cwd name) fsA env.template)
              (resolvePath env.cwd name ++ [(".npmignore")]) with
          | none =>
            rw [hl1] at hre
            cases hre
          | some entry =>
            cases entry with
            | dir =>
              rw [hl1] at hre
              cases hre
            | file cNpm =>
              rw [hl1] at hre
              injection hre with hfs2
              unfold saveProjectName at hsv
              cases hl2 : lookupFs fs2 (resolvePath env.cwd name ++ [("package.json")]) with
              | none =>
                rw [hl2] at hsv
                cases hsv
              | some entry2 =>
                cases entry2 with
                | dir =>
                  rw [hl2] at hsv
                  cases hsv
                | file c2 =>
                  cases c2 with
                  | raw s =>
                    rw [hl2] at hsv
                    cases hsv
                  | manifest m =>
                    rw [hl2] at hsv
                    injection hsv with hfs3
                    refine ⟨fsA, m, cNpm, hdir, hl1, ?_, ?_⟩
                    · rw [hfs2]
                      exact hl2
                    · rw [hfs, ← hfs3, ← hfs2]

/-! Structure of a completed run of the `part_001` variant: validation
passed, the target is a directory, the copied manifest existed, and
the final filesystem is the copied tree after the manifest patch. -/

theorem createAppV1_completed_shape (env : Env) (name : String)
    (hc : (createAppV1 env name).outcome = Outcome.completed) :
    ∃ fsA m,
      lookupFs fsA (resolvePath env.cwd name) = some FsEntry.dir ∧
      lookupFs (copyTemplate (resolvePath env.cwd name) fsA env.template)
        (resolvePath env.cwd name ++ [("package.json")]) = some (FsEntry.file (FileContent.manifest m)) ∧
      (createAppV1 env name).fsys =
        setFs (copyTemplate (resolvePath env.cwd name) fsA env.template)
          (resolvePath env.cwd name ++ [("package.json")])
          (FsEntry.file (FileContent.manifest ⟨basename (resolvePath env.cwd name), m.other⟩)) := by
  by_cases hv : (validateProjectName (basename (resolvePath env.cwd name))).validForNewPackages = true
  case neg =>
    exfalso
    rw [Bool.not_eq_true] at hv
    simp only [createAppV1, hv, Bool.false_eq_true, if_false] at hc
    simp at hc
  case pos =>
  cases hvd : validateDir env.fsys (resolvePath env.cwd name) (basename (resolvePath env.cwd name)) env.answer with
  | abort effs =>
    exfalso
    simp only [createAppV1, hv, if_true, hvd] at hc
    simp at hc
  | proceed fsA effs =>
    have hc2 : (afterValidationV1 fsA (resolvePath env.cwd name) (basename (resolvePath env.cwd name))
        env.template env.installExit).outcome = Outcome.completed := by
      simpa only [createAppV1, hv, if_true, hvd] using hc
    have hdir : lookupFs fsA (resolvePath env.cwd name) = some FsEntry.dir := by
      unfold validateDir at hvd
      cases hl0 : lookupFs env.fsys (resolvePath env.cwd name) with
      | none =>
        rw [hl0] at hvd
        injection hvd with h1 h2
        rw [← h1, lookupFs_setFs, if_pos rfl]
      | some entry =>
        cases entry with
        | dir =>
          rw [hl0] at hvd
          by_cases ha : env.answer = "y"
          · rw [if_pos ha] at hvd
            injection hvd with h1 h2
            rw [← h1]
            exact hl0
          · rw [if_neg ha] at hvd
            cases hvd
        | file c =>
          rw [hl0] at hvd
          cases hvd
    cases hsv : saveProjectName (copyTemplate (resolvePath env.cwd name) fsA env.template)
        (resolvePath env.cwd name) (basename (resolvePath env.cwd name)) with
    | error e =>
      exfalso
      simp only [afterValidationV1, hsv] at hc2
      simp at hc2
    | ok fs2 =>
      have hfs : (createAppV1 env name).fsys = fs2 := by
        cases hin : installDependencies false env.installExit with
        | resolved => simp only [createAppV1, hv, if_true, hvd, afterValidationV1, hsv, hin]
        | rejected e => simp only [createAppV1, hv, if_true, hvd, afterValidationV1, hsv, hin]
        | crashedTypeError => simp only [createAppV1, hv, if_true, hvd, afterValidationV1, hsv, hin]
      unfold saveProjectName at hsv
      cases hl2 : lookupFs (copyTemplate (resolvePath env.cwd name) fsA env.template)
          (resolvePath env.cwd name ++ [("package.json")]) with
      | none =>
        rw [hl2] at hsv
        cases hsv
      | some entry2 =>
        cases entry2 with
        | dir =>
          rw [hl2] at hsv
          cases hsv
        | file c2 =>
          cases c2 with
          | raw s =>
            rw [hl2] at hsv
            cases hsv
          | manifest m =>
            rw [hl2] at hsv
            injection hsv with hfs2
            exact ⟨fsA, m, hdir, hl2, by rw [hfs, ← hfs2]⟩

/-! Helper lemmas shared by the claim theorems. -/

theorem no_violation_of_valid (env : Env) (name : String)
    (hv : (validateProjectName (basename (resolvePath env.cwd name))).validForNewPackages = true)
    (msg : String) :
    Effect.printViolation msg ∉ (createApp env name).effects := by
  cases hl0 : lookupFs env.fsys (resolvePath env.cwd name) with
  | none =>
    simp only [createApp, hv, if_true, validateDir, hl0]
    intro hmem
    rcases List.mem_append.mp hmem with h | h
    · simp at h
    · exact printViolation_not_mem_afterValidation _ _ _ _ _ _ msg h
  | some entry =>
    cases entry with
    | dir =>
      by_cases ha : env.answer = "y"
      · simp only [createApp, hv, if_true, validateDir, hl0, if_pos ha]
        intro hmem
        rcases List.mem_append.mp hmem with h | h
        · simp at h
        · exact printViolation_not_mem_afterValidation _ _ _ _ _ _ msg h
      · simp only [createApp, hv, if_true, validateDir, hl0, if_neg ha]
        simp
    | file c =>
      simp only [createApp, hv, if_true, validateDir, hl0]
      simp

theorem append_singleton_ne (root : Path) (x y : String) (h : x ≠ y) :
    root ++ [x] ≠ root ++ [y] := by
  intro hcontra
  have h2 := List.append_cancel_left hcontra
  injection h2 with h3 h4
  exact h h3

/-- Claim C1: after a successful run, the manifest written at
`<root>/package.json` carries the resolved base name of the target
path as its name field, whatever name the template manifest declared,
and every other manifest field is written back unchanged. -/
theorem C1_manifest_name (env : Env) (name : String) (m : Manifest)
    (hc : (createApp env name).outcome = Outcome.completed)
    (htpl : ([("package.json")], FileContent.manifest m) ∈ env.template)
    (hnd : (env.template.map Prod.fst).Nodup) :
    lookupFs (createApp env name).fsys (resolvePath env.cwd name ++ [("package.json")]) =
      some (FsEntry.file (FileContent.manifest ⟨basename (resolvePath env.cwd name), m.other⟩)) := by
  obtain ⟨fsA, m2, cNpm, hdir, hnp, hpkg, hfs⟩ := createApp_completed_shape env name hc
  have hpkg1 : lookupFs (copyTemplate (resolvePath env.cwd name) fsA env.template)
      (resolvePath env.cwd name ++ [("package.json")]) =
      some (FsEntry.file (FileContent.manifest m)) :=
    lookupFs_copyTemplate_mem _ _ _ _ _ htpl hnd
  rw [lookupFs_setFs, if_neg (append_singleton_ne _ _ _ (by decide)), lookupFs_removeFs,
    if_neg (append_singleton_ne _ _ _ (by decide)), hpkg1] at hpkg
  injection hpkg with hpkg2
  injection hpkg2 with hpkg3
  injection hpkg3 with hpkg4
  rw [hfs, lookupFs_setFs, if_pos rfl, ← hpkg4]

theorem C1_manifest_name_witness :
    (createApp envC1 ("a")).outcome = Outcome.completed ∧
    ([("package.json")], FileContent.manifest ⟨"tpl", [("version", "1.0.0")]⟩) ∈ envC1.template ∧
    (envC1.template.map Prod.fst).Nodup ∧
    lookupFs (createApp envC1 ("a")).fsys (resolvePath envC1.cwd ("a") ++ [("package.json")]) =
      some (FsEntry.file (FileContent.manifest ⟨"a", [("version", "1.0.0")]⟩)) :=
  ⟨by decide, by decide, by decide,
    C1_manifest_name envC1 ("a") ⟨"tpl", [("version", "1.0.0")]⟩ (by decide) (by decide) (by decide)⟩

/-- Claim C2 counterexample: a successful run of the main variant does
not preserve every template file at its relative path — the template's
`.npmignore` is absent from the created tree (it was renamed to
`.gitignore`), so the claim as stated fails. -/
theorem C2_counterexample :
    (createApp envC2 ("my-app")).outcome = Outcome.completed ∧
    ([(".npmignore")], FileContent.raw ("nm")) ∈ envC2.template ∧
    lookupFs (createApp envC2 ("my-app")).fsys ([("h"), ("my-app"), (".npmignore")]) = none :=
  ⟨by decide, by decide, by decide⟩

/-- Claim C2 (amended): after a successful run the target exists as a
directory holding every template file at its relative path with its
contents, except the manifest (patched), and, in the main variant, the
top-level `.npmignore`, whose contents instead appear at `.gitignore`
(overwriting any template `.gitignore`); the `part_001` variant
preserves everything but the manifest. -/
theorem C2_template_preserved (env : Env) (name : String) :
    ((createApp env name).outcome = Outcome.completed →
      (env.template.map Prod.fst).Nodup →
      (∀ pc ∈ env.template, pc.1 ≠ ([] : Path)) →
      lookupFs (createApp env name).fsys (resolvePath env.cwd name) = some FsEntry.dir ∧
      (∀ p c, (p, c) ∈ env.template → p ≠ [("package.json")] → p ≠ [(".npmignore")] →
        p ≠ [(".gitignore")] →
        lookupFs (createApp env name).fsys (resolvePath env.cwd name ++ p) = some (FsEntry.file c)) ∧
      (∀ c, ([(".npmignore")], c) ∈ env.template →
        lookupFs (createApp env name).fsys (resolvePath env.cwd name ++ [(".gitignore")]) =
          some (FsEntry.file c))) ∧
    ((createAppV1 env name).outcome = Outcome.completed →
      (env.template.map Prod.fst).Nodup →
      (∀ pc ∈ env.template, pc.1 ≠ ([] : Path)) →
      lookupFs (createAppV1 env name).fsys (resolvePath env.cwd name) = some FsEntry.dir ∧
      (∀ p c, (p, c) ∈ env.template → p ≠ [("package.json")] →
        lookupFs (createAppV1 env name).fsys (resolvePath env.cwd name ++ p) = some (FsEntry.file c))) := by
  constructor
  · intro hc hnd hnn
    obtain ⟨fsA, m, cNpm, hdir, hnp, hpkg, hfs⟩ := createApp_completed_shape env name hc
    rw [hfs]
    refine ⟨?_, ?_, ?_⟩
    · rw [lookupFs_setFs, if_neg (append_ne_of_ne_nil _ _ (by simp)), lookupFs_setFs,
        if_neg (append_ne_of_ne_nil _ _ (by simp)), lookupFs_removeFs,
        if_neg (append_ne_of_ne_nil _ _ (by simp)),
        lookupFs_copyTemplate_notin _ _ _ _ (fun pc hpc => append_ne_of_ne_nil _ _ (hnn pc hpc))]
      exact hdir
    · intro p c hmem hp1 hp2 hp3
      have hq1 : (resolvePath env.cwd name ++ [("package.json")]) ≠ (resolvePath env.cwd name ++ p) :=
        fun hcontra => hp1 (List.append_cancel_left hcontra).symm
      have hq2 : (resolvePath env.cwd name ++ [(".gitignore")]) ≠ (resolvePath env.cwd name ++ p) :=
        fun hcontra => hp3 (List.append_cancel_left hcontra).symm
      have hq3 : (resolvePath env.cwd name ++ [(".npmignore")]) ≠ (resolvePath env.cwd name ++ p) :=
        fun hcontra => hp2 (List.append_cancel_left hcontra).symm
      rw [lookupFs_setFs, if_neg hq1, lookupFs_setFs, if_neg hq2, lookupFs_removeFs, if_neg hq3]
      exact lookupFs_copyTemplate_mem _ _ _ _ _ hmem hnd
    · intro c hmem
      have hc1 : lookupFs (copyTemplate (resolvePath env.cwd name) fsA env.template)
          (resolvePath env.cwd name ++ [(".npmignore")]) = some (FsEntry.file c) :=
        lookupFs_copyTemplate_mem _ _ _ _ _ hmem hnd
      rw [hnp] at hc1
      injection hc1 with hc2
      injection hc2 with hc3
      rw [lookupFs_setFs, if_neg (append_singleton_ne _ _ _ (by decide)), lookupFs_setFs,
        if_pos rfl, hc3]
  · intro hc hnd hnn
    obtain ⟨fsA, m, hdir, hpkg, hfs⟩ := createAppV1_completed_shape env name hc
    rw [hfs]
    refine ⟨?_, ?_⟩
    · rw [lookupFs_setFs, if_neg (append_ne_of_ne_nil _ _ (by simp)),
        lookupFs_copyTemplate_notin _ _ _ _ (fun pc hpc => append_ne_of_ne_nil _ _ (hnn pc hpc))]
      exact hdir
    · intro p c hmem hp1
      have hq1 : (resolvePath env.cwd name ++ [("package.json")]) ≠ (resolvePath env.cwd name ++ p) :=
        fun hcontra => hp1 (List.append_cancel_left hcontra).symm
      rw [lookupFs_setFs, if_neg hq1]
      exact lookupFs_copyTemplate_mem _ _ _ _ _ hmem hnd

theorem C2_template_preserved_witness :
    (createApp envC2 ("my-app")).outcome = Outcome.completed ∧
    (envC2.template.map Prod.fst).Nodup ∧
    lookupFs (createApp envC2 ("my-app")).fsys
      (resolvePath envC2.cwd ("my-app") ++ [("src"), ("app.js")]) =
      some (FsEntry.file (FileContent.raw ("code"))) :=
  ⟨by decide, by decide,
    (((C2_template_preserved envC2 ("my-app")).1 (by decide) (by decide)
        (by decide)).2.1 ([("src"), ("app.js")]) (FileContent.raw ("code"))
      (by decide) (by decide) (by decide) (by decide))⟩

/-- Claim C3: when the target exists as a directory, the run prompts;
any answer other than the exact token `y` makes the process exit with
code 1 with no template copy ever performed, and the answer `y` lets
the pipeline proceed to the copy stage. -/
theorem C3_overwrite_prompt (env : Env) (name : String)
    (hv : (validateProjectName (basename (resolvePath env.cwd name))).validForNewPackages = true)
    (hdir : lookupFs env.fsys (resolvePath env.cwd name) = some FsEntry.dir) :
    Effect.prompt ∈ (createApp env name).effects ∧
    (env.answer ≠ "y" →
      (createApp env name).outcome = Outcome.exited 1 ∧
      ∀ p, Effect.copyTemplate p ∉ (createApp env name).effects) ∧
    (env.answer = "y" →
      Effect.copyTemplate (resolvePath env.cwd name) ∈ (createApp env name).effects) := by
  by_cases ha : env.answer = "y"
  · simp only [createApp, hv, if_true, validateDir, hdir, if_pos ha]
    refine ⟨by simp, fun hna => absurd ha hna, fun _ => ?_⟩
    exact List.mem_append.mpr (Or.inr (copy_mem_afterValidation _ _ _ _ _ _))
  · simp only [createApp, hv, if_true, validateDir, hdir, if_neg ha]
    refine ⟨by simp, fun _ => ⟨by trivial, fun p => by simp⟩, fun hy => absurd hy ha⟩

theorem C3_overwrite_prompt_witness :
    (validateProjectName (basename (resolvePath envC3.cwd ("app")))).validForNewPackages = true ∧
    lookupFs envC3.fsys (resolvePath envC3.cwd ("app")) = some FsEntry.dir ∧
    envC3.answer ≠ "y" ∧
    Effect.prompt ∈ (createApp envC3 ("app")).effects ∧
    (createApp envC3 ("app")).outcome = Outcome.exited 1 ∧
    Effect.copyTemplate (resolvePath envC3.cwd ("app")) ∉ (createApp envC3 ("app")).effects :=
  ⟨by decide, by decide, by decide,
    (C3_overwrite_prompt envC3 ("app") (by decide) (by decide)).1,
    ((C3_overwrite_prompt envC3 ("app") (by decide) (by decide)).2.1 (by decide)).1,
    ((C3_overwrite_prompt envC3 ("app") (by decide) (by decide)).2.1 (by decide)).2
      (resolvePath envC3.cwd ("app"))⟩

/-- Claim C4: when the target exists and is not a directory, the run
reports the conflict and exits with code 1, leaving the filesystem
unchanged: no directory is created and no template content copied. -/
theorem C4_nondir_conflict (env : Env) (name : String) (c : FileContent)
    (hv : (validateProjectName (basename (resolvePath env.cwd name))).validForNewPackages = true)
    (hfile : lookupFs env.fsys (resolvePath env.cwd name) = some (FsEntry.file c)) :
    (createApp env name).outcome = Outcome.exited 1 ∧
    Effect.reportConflict (basename (resolvePath env.cwd name)) ∈ (createApp env name).effects ∧
    (createApp env name).fsys = env.fsys ∧
    (∀ p, Effect.ensureDir p ∉ (createApp env name).effects) ∧
    (∀ p, Effect.copyTemplate p ∉ (createApp env name).effects) := by
  simp only [createApp, hv, if_true, validateDir, hfile]
  exact ⟨by trivial, by simp, by trivial, fun p => by simp, fun p => by simp⟩

theorem C4_nondir_conflict_witness :
    (validateProjectName (basename (resolvePath envC4.cwd ("app")))).validForNewPackages = true ∧
    lookupFs envC4.fsys (resolvePath envC4.cwd ("app")) = some (FsEntry.file (FileContent.raw ("x"))) ∧
    (createApp envC4 ("app")).outcome = Outcome.exited 1 ∧
    (createApp envC4 ("app")).fsys = envC4.fsys ∧
    Effect.ensureDir (resolvePath envC4.cwd ("app")) ∉ (createApp envC4 ("app")).effects :=
  ⟨by decide, by decide,
    (C4_nondir_conflict envC4 ("app") (FileContent.raw ("x")) (by decide) (by decide)).1,
    (C4_nondir_conflict envC4 ("app") (FileContent.raw ("x")) (by decide) (by decide)).2.2.1,
    (C4_nondir_conflict envC4 ("app") (FileContent.raw ("x")) (by decide) (by decide)).2.2.2.1
      (resolvePath envC4.cwd ("app"))⟩

/-- Claim C5 (code bug): when the installer subprocess exits non-zero
on the npm branch, the rejection does name the exact command line
(`npm install`); but on the yarn branch the source never assigned
`args`, so building the report evaluates `undefined.join` and the
process crashes with an uncaught TypeError — no failure report naming
the command is ever produced there. -/
theorem C5_yarn_branch_crash :
    envC5.yarnAvailable = true ∧ envC5.installExit ≠ 0 ∧
    (createApp envC5 ("a")).outcome = Outcome.crashed ∧
    (createApp envC5 ("a")).effects.all (fun e => ! e.isReportFailure) = true ∧
    installDependencies false 1 = InstallResult.rejected (ErrVal.cmdFailed ("npm install")) ∧
    installDependencies true 1 = InstallResult.crashedTypeError :=
  ⟨by decide, by decide, by decide, by decide, by decide, by decide⟩

/-- Claim C6: for every name rejected by the registry rules the
process exits 1 and emits at least one violation line; for every
accepted name no violation line is emitted and the run continues past
validation into the directory-resolver stage. -/
theorem C6_registry_validation (env : Env) (name : String) :
    ((validateProjectName (basename (resolvePath env.cwd name))).validForNewPackages = false →
      (createApp env name).outcome = Outcome.exited 1 ∧
      ∃ msg, Effect.printViolation msg ∈ (createApp env name).effects) ∧
    ((validateProjectName (basename (resolvePath env.cwd name))).validForNewPackages = true →
      (∀ msg, Effect.printViolation msg ∉ (createApp env name).effects) ∧
      ((∃ p, Effect.ensureDir p ∈ (createApp env name).effects) ∨
        Effect.prompt ∈ (createApp env name).effects ∨
        ∃ a, Effect.reportConflict a ∈ (createApp env name).effects)) := by
  constructor
  · intro hv
    simp only [createApp, hv, Bool.false_eq_true, if_false]
    refine ⟨by trivial, ?_⟩
    have hne : (validateProjectName (basename (resolvePath env.cwd name))).errors ++
        (validateProjectName (basename (resolvePath env.cwd name))).warnings ≠ [] := by
      intro h0
      rw [List.append_eq_nil] at h0
      unfold ValidationResult.validForNewPackages at hv
      rw [h0.1, h0.2] at hv
      simp at hv
    obtain ⟨msg, hmsg⟩ := List.exists_mem_of_ne_nil _ hne
    exact ⟨msg, List.mem_map_of_mem _ hmsg⟩
  · intro hv
    refine ⟨fun msg => no_violation_of_valid env name hv msg, ?_⟩
    cases hl0 : lookupFs env.fsys (resolvePath env.cwd name) with
    | none =>
      left
      exact ⟨resolvePath env.cwd name, by simp only [createApp, hv, if_true, validateDir, hl0]; simp⟩
    | some entry =>
      cases entry with
      | dir =>
        right; left
        by_cases ha : env.answer = "y"
        · simp only [createApp, hv, if_true, validateDir, hl0, if_pos ha]
          simp
        · simp only [createApp, hv, if_true, validateDir, hl0, if_neg ha]
          simp
      | file c =>
        right; right
        exact ⟨basename (resolvePath env.cwd name), by simp only [createApp, hv, if_true, validateDir, hl0]; simp⟩

theorem C6_registry_validation_witness :
    (validateProjectName (basename (resolvePath envC6.cwd ("_x")))).validForNewPackages = false ∧
    (createApp envC6 ("_x")).outcome = Outcome.exited 1 :=
  ⟨by decide, ((C6_registry_validation envC6 ("_x")).1 (by decide)).1⟩

/-- Claim C7 counterexample: with yarn available and the installer
exiting non-zero, the failure is not caught by the terminal handler
(no failure report is logged) and the process exit code is 1, not the
0 of a successful run — so installer failure is not uniformly
"caught, logged, and indistinguishable from success by exit code". -/
theorem C7_exit_code_counterexample :
    envC7.installExit ≠ 0 ∧
    (createApp envC7 ("b")).outcome = Outcome.crashed ∧
    (createApp envC7 ("b")).outcome.exitCode = 1 ∧
    Outcome.completed.exitCode = 0 ∧
    (createApp envC7 ("b")).effects.all (fun e => ! e.isReportFailure) = true :=
  ⟨by decide, by decide, by decide, by decide, by decide⟩

/-- Claim C7 (amended): an installer failure on the npm branch is
caught and logged by the terminal handler and the process exit code
there is 0, identical to success; on the yarn branch the same failure
instead crashes the process (exit code 1, not caught); the
missing-argument, invalid-name, non-directory-conflict and
declined-overwrite paths all exit with code 1. -/
theorem C7_exit_code_policy (env : Env) (name : String) :
    (env.yarnAvailable = false → env.installExit ≠ 0 →
      ∀ fsA effs fs2 fs3,
        (validateProjectName (basename (resolvePath env.cwd name))).validForNewPackages = true →
        validateDir env.fsys (resolvePath env.cwd name) (basename (resolvePath env.cwd name)) env.answer
          = DirResult.proceed fsA effs →
        renameNpmignore (copyTemplate (resolvePath env.cwd name) fsA env.template)
          (resolvePath env.cwd name) = Except.ok fs2 →
        saveProjectName fs2 (resolvePath env.cwd name) (basename (resolvePath env.cwd name))
          = Except.ok fs3 →
        (createApp env name).outcome = Outcome.caughtError (ErrVal.cmdFailed ("npm install")) ∧
        Effect.reportFailure (ErrVal.cmdFailed ("npm install")) ∈ (createApp env name).effects ∧
        (createApp env name).outcome.exitCode = 0 ∧ Outcome.completed.exitCode = 0) ∧
    (env.yarnAvailable = true → env.installExit ≠ 0 →
      ∀ fsA effs fs2 fs3,
        (validateProjectName (basename (resolvePath env.cwd name))).validForNewPackages = true →
        validateDir env.fsys (resolvePath env.cwd name) (basename (resolvePath env.cwd name)) env.answer
          = DirResult.proceed fsA effs →
        renameNpmignore (copyTemplate (resolvePath env.cwd name) fsA env.template)
          (resolvePath env.cwd name) = Except.ok fs2 →
        saveProjectName fs2 (resolvePath env.cwd name) (basename (resolvePath env.cwd name))
          = Except.ok fs3 →
        (createApp env name).outcome = Outcome.crashed ∧
        (createApp env name).outcome.exitCode = 1) ∧
    (runCli env none).outcome = Outcome.exited 1 ∧
    ((validateProjectName (basename (resolvePath env.cwd name))).validForNewPackages = false →
      (createApp env name).outcome = Outcome.exited 1) ∧
    (∀ c, (validateProjectName (basename (resolvePath env.cwd name))).validForNewPackages = true →
      lookupFs env.fsys (resolvePath env.cwd name) = some (FsEntry.file c) →
      (createApp env name).outcome = Outcome.exited 1) ∧
    ((validateProjectName (basename (resolvePath env.cwd name))).validForNewPackages = true →
      lookupFs env.fsys (resolvePath env.cwd name) = some FsEntry.dir →
      env.answer ≠ "y" → (createApp env name).outcome = Outcome.exited 1) := by
  refine ⟨?_, ?_, by trivial, ?_, ?_, ?_⟩
  · intro hyarn hec fsA effs fs2 fs3 hv hvd hre hsv
    have hin : installDependencies env.yarnAvailable env.installExit
        = InstallResult.rejected (ErrVal.cmdFailed ("npm install")) := by
      rw [hyarn]
      unfold installDependencies
      rw [if_pos hec]
      decide
    simp only [createApp, hv, if_true, hvd, afterValidation, hre, hsv, hin]
    exact ⟨by trivial, by simp, by trivial, by trivial⟩
  · intro hyarn hec fsA effs fs2 fs3 hv hvd hre hsv
    have hin : installDependencies env.yarnAvailable env.installExit
        = InstallResult.crashedTypeError := by
      rw [hyarn]
      unfold installDependencies
      rw [if_pos hec]
      decide
    simp only [createApp, hv, if_true, hvd, afterValidation, hre, hsv, hin]
    exact ⟨by trivial, by trivial⟩
  · intro hv
    simp only [createApp, hv, Bool.false_eq_true, if_false]
  · intro c hv hfile
    simp only [createApp, hv, if_true, validateDir, hfile]
  · intro hv hdir ha
    simp only [createApp, hv, if_true, validateDir, hdir, if_neg ha]

theorem C7_exit_code_policy_witness :
    (createApp envC7w ("a")).outcome = Outcome.caughtError (ErrVal.cmdFailed ("npm install")) ∧
    Effect.reportFailure (ErrVal.cmdFailed ("npm install")) ∈ (createApp envC7w ("a")).effects ∧
    (createApp envC7w ("a")).outcome.exitCode = 0 ∧ Outcome.completed.exitCode = 0 :=
  (C7_exit_code_policy envC7w ("a")).1 (by decide) (by decide) fsAC7
    ([Effect.ensureDir ([("h"), ("a")])]) fs2C7 fs3C7 (by decide) (by decide) (by rfl) (by rfl)

/-- Claim C8: the only affirmative token the overwrite prompt accepts
is the exact string `y`: every other answer (including `Y`, `yes`,
whitespace-padded strings and the empty string) makes the process exit
with code 1, while `y` never triggers a `process.exit`. -/
theorem C8_only_exact_y (env : Env) (name : String)
    (hv : (validateProjectName (basename (resolvePath env.cwd name))).validForNewPackages = true)
    (hdir : lookupFs env.fsys (resolvePath env.cwd name) = some FsEntry.dir) :
    (env.answer ≠ "y" → (createApp env name).outcome = Outcome.exited 1) ∧
    (env.answer = "y" → ∀ c, (createApp env name).outcome ≠ Outcome.exited c) := by
  constructor
  · intro ha
    simp only [createApp, hv, if_true, validateDir, hdir, if_neg ha]
  · intro ha c
    simp only [createApp, hv, if_true, validateDir, hdir, if_pos ha]
    exact afterValidation_no_exit _ _ _ _ _ _ c

theorem C8_only_exact_y_witness :
    (validateProjectName (basename (resolvePath envC8.cwd ("app")))).validForNewPackages = true ∧
    lookupFs envC8.fsys (resolvePath envC8.cwd ("app")) = some FsEntry.dir ∧
    envC8.answer = "Y" ∧
    (createApp envC8 ("app")).outcome = Outcome.exited 1 :=
  ⟨by decide, by decide, by decide,
    (C8_only_exact_y envC8 ("app") (by decide) (by decide)).1 (by decide)⟩

/-- Claim C9: name validation applies to the base name of the resolved
target path, not the raw CLI argument: any run whose resolved base
name is accepted prints no violation line, and in particular the raw
argument `sub/my-app` violates the registry rules itself while its
resolved base name `my-app` is accepted. -/
theorem C9_basename_validation (env : Env) (name : String) :
    ((validateProjectName (basename (resolvePath env.cwd name))).validForNewPackages = true →
      ∀ msg, Effect.printViolation msg ∉ (createApp env name).effects) ∧
    (validateProjectName ("sub/my-app")).validForNewPackages = false ∧
    basename (resolvePath [("h")] ("sub/my-app")) = "my-app" ∧
    (validateProjectName ("my-app")).validForNewPackages = true := by
  refine ⟨fun hv msg => no_violation_of_valid env name hv msg, by decide, by decide, by decide⟩

theorem C9_basename_validation_witness :
    (validateProjectName (basename (resolvePath envC9.cwd ("sub/my-app")))).validForNewPackages = true ∧
    Effect.printViolation ("name can only contain URL-friendly characters") ∉
      (createApp envC9 ("sub/my-app")).effects :=
  ⟨by decide, (C9_basename_validation envC9 ("sub/my-app")).1 (by decide)
    ("name can only contain URL-friendly characters")⟩

/-- Claim C10: in the minimal variant, for every accepted project name
the run performs no filesystem or subprocess effects at all:
`createApp` validates the name and returns, with an empty effect trace
and the filesystem unchanged. -/
theorem C10_min_variant_no_effects (env : Env) (name : String)
    (hv : (validateProjectName (basename (resolvePath env.cwd name))).validForNewPackages = true) :
    createAppMin env name = ⟨[], env.fsys, Outcome.completed⟩ := by
  simp only [createAppMin, hv, if_true]

theorem C10_min_variant_no_effects_witness :
    (validateProjectName (basename (resolvePath envC10.cwd ("a")))).validForNewPackages = true ∧
    createAppMin envC10 ("a") = ⟨[], envC10.fsys, Outcome.completed⟩ :=
  ⟨by decide, C10_min_variant_no_effects envC10 ("a") (by decide)⟩

end SRP
